import Mathlib

/-!
Verification of the orchestration logic of the audio-normalizer repository
(`normalize_audio.py` and `verify_audio.py`) against its specification.

The two Python programs are shallowly embedded here:

* Python strings are Lean `String`s; where character-level scanning is needed
  (the JSON-block extraction, suffix handling) we work on `List Char`, which is
  what a Python `str` is semantically.
* Python floats carrying loudness measurements are embedded as `ℚ`.  The
  constants (-16.0, 0.5, -1.0, 7.0) and all measured values handled by the
  compliance checker are exact decimals, so rational arithmetic coincides with
  the float arithmetic on every comparison the code performs.  Python's
  built-in `abs` is embedded as an explicit `if`-based absolute value.
* The filesystem is a finite tree (`FSTree`); `os.walk`'s visiting order
  within one directory is the order of the entry list.
* Subprocess invocations are recorded as values (the argv list that would be
  executed); their outcomes (ffmpeg's output, exit status) are oracle inputs
  to the embedded control flow.
* `json.loads` is not modelled; the JSON-block *extraction* (the code the
  claims are about) returns the exact character string that the Python code
  would hand to `json.loads`, or `none` on the paths where the Python
  function returns `None` before/without a parseable slice.
-/

/-! ## Shared basics -/

/-- Python `abs` on a rational reading (the embedding of `abs(x)` on floats
whose values are exact decimals). -/
def pyAbs (q : ℚ) : ℚ := if q < 0 then -q else q

/-- `'c' ∈ s` for a Python string modelled as `List Char` (Python `'c' in s`). -/
def hasChar (l : List Char) (c : Char) : Bool := l.contains c

/-- Python `str.lower` restricted to what the code needs: ASCII lowering,
character by character. -/
def lowerChars (l : List Char) : List Char := l.map Char.toLower

/-- Python `str.endswith` on character lists. -/
def endsWithChars (l suf : List Char) : Bool :=
  decide (l.drop (l.length - suf.length) = suf) && decide (suf.length ≤ l.length)

/-- The supported audio extension set, shared verbatim by both programs
(`audio_extensions` in `find_audio_files` and in both `main`s). -/
def audio_extensions : List (List Char) :=
  [".mp3".toList, ".m4a".toList, ".mp4".toList, ".wav".toList,
   ".flac".toList, ".aac".toList, ".ogg".toList, ".wma".toList]

/-- `any(file.lower().endswith(ext) for ext in audio_extensions)`. -/
def isAudioName (file : String) : Bool :=
  audio_extensions.any (fun ext => endsWithChars (lowerChars file.toList) ext)

/-! ## JSON-block extraction (normalize_audio.py lines 86-105 and
verify_audio.py lines 64-87: the two loops are textually identical) -/

/-- The scanning loop over `stderr_lines`: `json_start` is set at the first
line containing a brace-open; from then on lines are accumulated into
`json_data`; the loop breaks at the first accumulated line containing a
brace-close.  The Boolean argument is `json_start is not None`. -/
def collectJson : List (List Char) → Bool → List (List Char)
  | [], _ => []
  | line :: rest, started =>
    if started || hasChar line '{' then
      if hasChar line '}' then [line]
      else line :: collectJson rest true
    else collectJson rest false

/-- Python `'\n'.join(json_data)`. -/
def joinLines : List (List Char) → List Char
  | [] => []
  | [l] => l
  | l :: ls => l ++ '\n' :: joinLines ls

/-- Python slice `l[a:b]` for `0 ≤ a`, `0 ≤ b`. -/
def pySlice (l : List Char) (a b : Nat) : List Char := (l.take b).drop a

/-- The whole extraction:
`json_str = '\n'.join(json_data); json_str = json_str[json_str.find('{') : json_str.rfind('}')+1]`.
When `json_data` is empty the Python code returns `None`.  When `json_data`
is non-empty its first line contains a brace-open, so `find` succeeds; if
`rfind` fails (no brace-close was ever seen) Python slices to
`json_str[i:0] = ''` and `json.loads('')` raises, which the enclosing
`try/except` turns into `None` — embedded as the `none` branch.  Otherwise
the result is the exact sliced string handed to `json.loads`. -/
def extract_json_block (stderr_lines : List (List Char)) : Option (List Char) :=
  let json_data := collectJson stderr_lines false
  if json_data.isEmpty then none
  else
    let json_str := joinLines json_data
    match json_str.reverse.findIdx? (· == '}') with
    | none => none
    | some k =>
      some (pySlice json_str (json_str.findIdx (· == '{')) (json_str.length - 1 - k + 1))

/-! ## verify_audio.py : constants, `check_file_compliance`, and the
aggregate summary conditions of `main` -/

namespace VerifyAudio

/-- `TARGET_LUFS = -16.0` (verify_audio.py line 29). -/
def TARGET_LUFS : ℚ := -16

/-- `LUFS_TOLERANCE = 0.5` (verify_audio.py line 30). -/
def LUFS_TOLERANCE : ℚ := 1/2

/-- `TARGET_TP = -1.0` (verify_audio.py line 31). -/
def TARGET_TP : ℚ := -1

/-- The structured record `analyze_file` builds from the parsed JSON:
`{'lufs': float(...), 'peak': float(...), 'lra': float(...)}`. -/
structure LoudnessData where
  lufs : ℚ
  peak : ℚ
  lra : ℚ
deriving DecidableEq, Repr

/-- The loudness issue string appended when `abs(lufs - TARGET_LUFS) >
LUFS_TOLERANCE`.  Python renders the measured float with `:.1f`; digit
rendering of the float is abstracted by `toString` on the exact rational,
which is injective, so issue identity and order are preserved. -/
def loudnessIssue (lufs : ℚ) : String :=
  "LUFS " ++ toString lufs ++ " (target: -16.0±0.5)"

/-- The peak issue string appended when `peak > TARGET_TP`. -/
def peakIssue (peak : ℚ) : String :=
  "Peak " ++ toString peak ++ " dBTP exceeds -1.0 dBTP"

/-- `check_file_compliance` (verify_audio.py lines 92-110): `None` yields
`(False, ["Failed to analyze file"])`; otherwise an issue list is built by
appending the loudness issue when the loudness deviation exceeds the
tolerance, then the peak issue when the peak exceeds the ceiling, and the
verdict is `len(issues) == 0`. -/
def check_file_compliance (loudness_data : Option LoudnessData) : Bool × List String :=
  match loudness_data with
  | none => (false, ["Failed to analyze file"])
  | some d =>
    let issues : List String :=
      (if pyAbs (d.lufs - TARGET_LUFS) > LUFS_TOLERANCE then [loudnessIssue d.lufs] else [])
      ++ (if d.peak > TARGET_TP then [peakIssue d.peak] else [])
    (issues.length == 0, issues)

/-- The `compliant_files` tally of the analysis loop (verify_audio.py lines
196-222), as a function of each file's analysis result: the loop increments
it exactly for the files whose record is non-null and compliant, and
`check_file_compliance` maps a null record to a `False` verdict, so counting
the `True` verdicts coincides with the loop's counter. -/
def compliant_files (results : List (Option LoudnessData)) : Nat :=
  results.countP (fun r => (check_file_compliance r).1)

/-- `len(failed_files)` after the loop: the files whose record is null. -/
def failed_files_count (results : List (Option LoudnessData)) : Nat :=
  results.countP (fun r => r.isNone)

/-- The condition of the "✓ All files at target loudness" summary line
(verify_audio.py lines 237-241): `compliant_files == total_checked and
total_checked > 0` with `total_checked = len(normalized_files) -
len(failed_files)`. -/
def summary_all_at_target (results : List (Option LoudnessData)) : Bool :=
  (compliant_files results == results.length - failed_files_count results)
    && decide (0 < results.length - failed_files_count results)

/-- The condition of the final "✓ All files ready for stage performance!"
headline (verify_audio.py line 258): `compliant_files ==
len(normalized_files)`. -/
def headline_all_ready (results : List (Option LoudnessData)) : Bool :=
  compliant_files results == results.length

/-- The `analyze_file` analysis command (verify_audio.py lines 55-59): the
audio filter passes only `print_format=json` — no target parameters — and
the media output goes to the null sink. -/
def analyze_file_cmd (file_path : String) : List String :=
  ["ffmpeg", "-i", file_path, "-af", "loudnorm=print_format=json", "-f", "null", "-"]

end VerifyAudio

/-! ## normalize_audio.py : constants and command construction -/

namespace NormalizeAudio

/-- A parsed JSON object as Python passes it around: an association list of
string keys to string values (ffmpeg's loudnorm JSON renders every value as
a string). -/
abbrev PyDict := List (String × String)

/-- Python `dict.get(key, default)`. -/
def dictGet (d : PyDict) (key default : String) : String :=
  match d.find? (fun p => p.1 == key) with
  | some p => p.2
  | none => default

/-- `TARGET_LUFS = -16.0` (normalize_audio.py line 45), as Python string
interpolation renders the float inside the filter f-strings. -/
def TARGET_LUFS_STR : String := "-16.0"

/-- `TARGET_LRA = 7.0` (normalize_audio.py line 46), rendered. -/
def TARGET_LRA_STR : String := "7.0"

/-- `TARGET_TP = -1.0` (normalize_audio.py line 47), rendered. -/
def TARGET_TP_STR : String := "-1.0"

/-- The f-string fragment `loudnorm=I={TARGET_LUFS}:TP={TARGET_TP}:LRA={TARGET_LRA}`
shared by all three command constructions in normalize_audio.py. -/
def loudnorm_targets : String :=
  "loudnorm=I=" ++ TARGET_LUFS_STR ++ ":TP=" ++ TARGET_TP_STR ++ ":LRA=" ++ TARGET_LRA_STR

/-- The `analyze_loudness` analysis command (normalize_audio.py lines 77-81):
targets baked into the filter, JSON requested, media output to the null
sink. -/
def analyze_loudness_cmd (input_file : String) : List String :=
  ["ffmpeg", "-i", input_file,
   "-af", loudnorm_targets ++ ":print_format=json",
   "-f", "null", "-"]

/-- The single-pass fallback command of `normalize_audio`
(normalize_audio.py lines 115-122). -/
def fallback_cmd (input_file output_file : String) : List String :=
  ["ffmpeg", "-i", input_file,
   "-af", loudnorm_targets,
   "-ar", "44100", "-b:a", "192k", "-y", output_file]

/-- The two-pass command of `normalize_audio` (normalize_audio.py lines
124-141), with every measured value fetched by `dict.get` with the source's
defaults and linear gain requested. -/
def two_pass_cmd (input_file output_file : String) (d : PyDict) : List String :=
  ["ffmpeg", "-i", input_file,
   "-af", loudnorm_targets
     ++ ":measured_I=" ++ dictGet d "input_i" "-99.0"
     ++ ":measured_TP=" ++ dictGet d "input_tp" "-99.0"
     ++ ":measured_LRA=" ++ dictGet d "input_lra" "0.0"
     ++ ":measured_thresh=" ++ dictGet d "input_thresh" "-99.0"
     ++ ":offset=" ++ dictGet d "target_offset" "0.0"
     ++ ":linear=true",
   "-ar", "44100", "-b:a", "192k", "-y", output_file]

/-- `normalize_audio`'s command selection (normalize_audio.py lines
113-141): `if not loudness_data:` takes the single-pass fallback — in Python
both `None` and an empty mapping are falsy — otherwise the two-pass command
is built from the record. -/
def normalize_audio_cmd (input_file output_file : String) : Option PyDict → List String
  | none => fallback_cmd input_file output_file
  | some d =>
    if d.isEmpty then fallback_cmd input_file output_file
    else two_pass_cmd input_file output_file d

end NormalizeAudio

/-- Substring test on character lists (Python `sub in s`). -/
def containsSub : List Char → List Char → Bool
  | [], sub => sub.isEmpty
  | l@(_ :: rest), sub => sub.isPrefixOf l || containsSub rest sub

/-! ## A filesystem model for `os.walk` -/

/-- A directory's contents: an entry is a plain file or a subdirectory with
its own entries.  `os.walk` enumerates, per directory, its files (in an
OS-determined order, modelled by the entry order) and then recurses into the
subdirectories top-down. -/
inductive FSTree where
  | file (name : String)
  | dir (name : String) (entries : List FSTree)
deriving Repr

/-- The plain file names among one directory's entries (the `files` part of
an `os.walk` triple). -/
def filesOfEntries (entries : List FSTree) : List String :=
  entries.filterMap fun e => match e with
    | .file n => some n
    | .dir _ _ => none

/-- `Path(root) / name` on POSIX. -/
def joinPath (root name : String) : String := root ++ "/" ++ name

mutual

/-- All `(dirpath, filename)` pairs `os.walk(root)` yields over a directory
with the given entries, in visiting order. -/
def walkPairs (root : String) (entries : List FSTree) : List (String × String) :=
  (filesOfEntries entries).map (fun n => (root, n)) ++ walkPairsSubs root entries
termination_by (sizeOf entries, 1)

/-- The recursion of `walkPairs` into the subdirectory entries. -/
def walkPairsSubs (root : String) : List FSTree → List (String × String)
  | [] => []
  | .file _ :: rest => walkPairsSubs root rest
  | .dir d es :: rest => walkPairs (joinPath root d) es ++ walkPairsSubs root rest
termination_by es => (sizeOf es, 0)

end

mutual

/-- The collecting loop of `find_audio_files` (normalize_audio.py lines
61-64 = verify_audio.py lines 47-50): per directory, the audio-named files
are appended as `Path(root)/file`, then the walk continues into the
subdirectories. -/
def walkAudio (root : String) (entries : List FSTree) : List String :=
  ((filesOfEntries entries).filter isAudioName).map (joinPath root) ++ walkAudioSubs root entries
termination_by (sizeOf entries, 1)

/-- The recursion of `walkAudio` into the subdirectory entries. -/
def walkAudioSubs (root : String) : List FSTree → List String
  | [] => []
  | .file _ :: rest => walkAudioSubs root rest
  | .dir d es :: rest => walkAudio (joinPath root d) es ++ walkAudioSubs root rest
termination_by es => (sizeOf es, 0)

end

/-- `find_audio_files` (normalize_audio.py lines 57-65 = verify_audio.py
lines 43-51): collect, then `sorted(...)`.  Python sorts `Path`s by their
full path string on POSIX; over a linear order every sort returns the same
arrangement, embedded by insertion sort. -/
def find_audio_files (root : String) (entries : List FSTree) : List String :=
  List.insertionSort (· ≤ ·) (walkAudio root entries)

mutual

/-- The single-file search loop shared by both programs (normalize_audio.py
lines 185-190, verify_audio.py lines 150-163): per directory, the first file
satisfying the match predicate is appended (the inner `break` stops after
one match per directory) and the walk continues into the subdirectories.
The predicate receives the directory path and the file name. -/
def searchWalk (m : String → String → Bool) (root : String) (entries : List FSTree) :
    List String :=
  (match (filesOfEntries entries).find? (m root) with
   | some n => [joinPath root n]
   | none => []) ++ searchWalkSubs m root entries
termination_by (sizeOf entries, 1)

/-- The recursion of `searchWalk` into the subdirectory entries. -/
def searchWalkSubs (m : String → String → Bool) (root : String) : List FSTree → List String
  | [] => []
  | .file _ :: rest => searchWalkSubs m root rest
  | .dir d es :: rest => searchWalk m (joinPath root d) es ++ searchWalkSubs m root rest
termination_by es => (sizeOf es, 0)

end

/-- `os.path.basename`: the part of a POSIX path after its last slash. -/
def basename (p : String) : String :=
  String.mk ((p.toList.reverse.takeWhile (fun c => !(c == '/'))).reverse)

/-- `PurePath.stem` of a file name per pathlib: if the last dot sits at an
index `i` with `0 < i < len - 1`, the stem is the part before it; otherwise
the whole name (a leading or trailing dot is not a suffix separator). -/
def pyStem (name : String) : String :=
  let l := name.toList
  match l.reverse.findIdx? (· == '.') with
  | none => name
  | some k =>
    let i := l.length - 1 - k
    if 0 < i ∧ i < l.length - 1 then String.mk (l.take i) else name

/-- `Path(...).with_suffix('.mp3')` on a file name: drop the existing suffix
(per the `pyStem` rule) and append `.mp3`. -/
def pyWithSuffixMp3 (name : String) : String := pyStem name ++ ".mp3"

/-- The match predicate of the normalizer's single-file search
(normalize_audio.py line 188) and of the verifier's `--source` search
(verify_audio.py line 153):
`file == os.path.basename(file_path) or str(Path(root)/file).endswith(file_path)`. -/
def singleFileMatch (file_path : String) (root file : String) : Bool :=
  (file == basename file_path) ||
    endsWithChars (joinPath root file).toList file_path.toList

/-- The match predicate of the verifier's normalized-directory search
(verify_audio.py lines 158-161): additionally matches
`search_name = Path(file_path).stem + '.mp3'`. -/
def normalizedFileMatch (file_path : String) (root file : String) : Bool :=
  (file == pyStem (basename file_path) ++ ".mp3") ||
    (file == basename file_path) ||
    endsWithChars (joinPath root file).toList file_path.toList

/-! ## normalize_audio.py : path mapper, processing loop, exit codes -/

namespace NormalizeAudio

/-- A pathlib path, as its list of components. -/
abbrev PathP := List String

/-- `source_file.relative_to(source_dir)`: strips the root's components;
`none` embeds the `ValueError` raised when the root is not a prefix. -/
def relative_to (p root : PathP) : Option PathP :=
  if p.take root.length = root then some (p.drop root.length) else none

/-- The non-empty prefixes of a path, shortest first: the chain of
directories `mkdir(parents=True)` ensures. -/
def prefixesOf (d : PathP) : List PathP :=
  (List.range d.length).map (fun i => d.take (i + 1))

/-- `Path.mkdir(parents=True, exist_ok=exist_ok)` over a directory-set
state: missing ancestors (and the leaf) are created; a pre-existing leaf
raises `FileExistsError` (`Except.error ()`) exactly when `exist_ok` is
false. -/
def mkdir_parents (fs : List PathP) (d : PathP) (exist_ok : Bool) :
    Except Unit (List PathP) :=
  if d ∈ fs ∧ exist_ok = false then Except.error ()
  else Except.ok ((prefixesOf d).foldl (fun s p => if p ∈ s then s else s ++ [p]) fs)

/-- `create_output_path` (normalize_audio.py lines 67-73): the output path
is `output_dir / relative_path` with the suffix rewritten to `.mp3`, and the
output path's parent directory chain is created with
`mkdir(parents=True, exist_ok=True)`.  The error branches embed the
exceptions `relative_to` and `with_suffix` can raise (never reached for a
file under the source root). -/
def create_output_path (fs : List PathP) (source_file source_dir output_dir : PathP) :
    Except Unit (PathP × List PathP) :=
  match relative_to source_file source_dir with
  | none => Except.error ()
  | some relative_path =>
    match relative_path.getLast? with
    | none => Except.error ()
    | some name =>
      let output_path := output_dir ++ (relative_path.dropLast ++ [pyWithSuffixMp3 name])
      match mkdir_parents fs output_path.dropLast true with
      | Except.error e => Except.error e
      | Except.ok fs2 => Except.ok (output_path, fs2)

/-- The per-file oracle for one loop iteration: whether the computed output
path already exists, the analysis result, and whether the normalization
subprocess exits successfully. -/
structure FileEnv where
  output_exists : Bool
  loudness_data : Option PyDict
  normalize_ok : Bool

/-- The run counters of `main` (normalize_audio.py lines 209-211). -/
structure Counters where
  successful : Nat
  failed : Nat
  skipped : Nat
deriving DecidableEq, Repr

/-- A subprocess invocation made during one loop iteration. -/
inductive Invocation where
  | analyze (input : String)
  | normalize (input : String)
deriving DecidableEq, Repr

/-- One iteration of the processing loop (normalize_audio.py lines 213-246)
on file `f`: when the output path already exists the file is skipped and no
subprocess runs; otherwise `analyze_loudness` runs ffmpeg once and
`normalize_audio` runs it once more (in either mode), and exactly one of
successful/failed is incremented according to the normalization outcome. -/
def process_file (f : String) (env : FileEnv) (c : Counters) :
    Counters × List Invocation :=
  if env.output_exists then
    ({ c with skipped := c.skipped + 1 }, [])
  else
    let invocations := [Invocation.analyze f, Invocation.normalize f]
    if env.normalize_ok then
      ({ c with successful := c.successful + 1 }, invocations)
    else
      ({ c with failed := c.failed + 1 }, invocations)

/-- The whole processing loop over the discovered files. -/
def run_loop : List (String × FileEnv) → Counters → Counters
  | [], c => c
  | (f, env) :: rest, c => run_loop rest (process_file f env c).1

/-- The environment `main` runs in: the entries of the `mp3s` source tree
(`none` when the directory is missing), the command-line arguments after the
script name, and the per-file oracle.  `base_dir` is abstracted to the
working directory, so the source root path is `"mp3s"`. -/
structure World where
  source_entries : Option (List FSTree)
  args : List String
  env : String → FileEnv

/-- The exit code of the normalizer's `main` (normalize_audio.py lines
161-258): `1` when the source directory is missing (line 173), `1` in
single-file mode for a non-audio extension (line 182) or when no match is
found (line 194); otherwise the run completes — `sys.exit(0)` on an empty
batch (line 204) or falling off the end — with exit code `0`.  The per-file
oracle never influences the exit code. -/
def normalize_main_exit (w : World) : Nat :=
  match w.source_entries with
  | none => 1
  | some entries =>
    match w.args with
    | file_path :: _ =>
      if !isAudioName file_path then 1
      else
        let audio_files := searchWalk (singleFileMatch file_path) "mp3s" entries
        if audio_files.isEmpty then 1 else 0
    | [] =>
      let audio_files := find_audio_files "mp3s" entries
      if audio_files.isEmpty then 0 else 0

end NormalizeAudio

/-! ## verify_audio.py : the exit code of `main` -/

namespace VerifyAudio

/-- The environment the verifier's `main` runs in: the entries of the
`mp3s` and `normalized` trees (`none` for a missing directory), the
command-line arguments after the script name, and the per-file analysis
oracle.  (`sys.argv[0]` is the script path, never `--source`, so flag
detection and removal act on the argument tail.) -/
structure World where
  source_entries : Option (List FSTree)
  normalized_entries : Option (List FSTree)
  args : List String
  analysis : String → Option LoudnessData

/-- The exit code of the verifier's `main` (verify_audio.py lines 112-263):
`--source` (anywhere among the arguments, removed before further parsing)
selects the source root; `1` when the selected root directory is missing
(line 135), `1` in single-file mode for a non-audio extension (line 144) or
no match (line 167); otherwise the run completes — `sys.exit(0)` when zero
files are found (line 191) or falling off the end — with exit code `0`.
The analysis oracle never influences the exit code. -/
def verify_main_exit (w : World) : Nat :=
  let check_source := w.args.contains "--source"
  let args := w.args.erase "--source"
  match (if check_source then w.source_entries else w.normalized_entries) with
  | none => 1
  | some entries =>
    let root := if check_source then "mp3s" else "normalized"
    match args with
    | file_path :: _ =>
      if !isAudioName file_path then 1
      else
        let target_files :=
          if check_source then searchWalk (singleFileMatch file_path) root entries
          else searchWalk (normalizedFileMatch file_path) root entries
        if target_files.isEmpty then 1 else 0
    | [] =>
      let normalized_files := find_audio_files root entries
      if normalized_files.isEmpty then 0 else 0

end VerifyAudio

/-! ## Theorems about the JSON-block extraction -/

/-- `hasChar` agrees with list membership. -/
theorem hasChar_false_iff (l : List Char) (c : Char) : hasChar l c = false ↔ c ∉ l := by
  simp [hasChar]

/-- The scanner skips leading lines containing no brace-open. -/
theorem collectJson_skip (pre rest : List (List Char))
    (h : ∀ l ∈ pre, hasChar l '{' = false) :
    collectJson (pre ++ rest) false = collectJson rest false := by
  induction pre with
  | nil => rfl
  | cons l pre ih =>
    have hl : hasChar l '{' = false := h l (List.mem_cons_self l pre)
    have : collectJson ((l :: pre) ++ rest) false = collectJson (pre ++ rest) false := by
      simp [collectJson, hl]
    rw [this]
    exact ih fun x hx => h x (List.mem_cons_of_mem l hx)

/-- Once started, the scanner accumulates exactly the lines up to and
including the first one containing a brace-close. -/
theorem collectJson_body (bs : List (List Char)) :
    ∀ (b : List Char) (post : List (List Char)) (started : Bool),
    (started || hasChar b '{') = true →
    (∀ l ∈ (b :: bs).dropLast, hasChar l '}' = false) →
    hasChar ((b :: bs).getLast (by simp)) '}' = true →
    collectJson ((b :: bs) ++ post) started = b :: bs := by
  induction bs with
  | nil =>
    intro b post started hstart _ hlast
    simp only [List.getLast_singleton] at hlast
    simp [collectJson, hstart, hlast]
  | cons b' bs ih =>
    intro b post started hstart hmid hlast
    have hb : hasChar b '}' = false := hmid b (by simp [List.dropLast_cons₂])
    have hrec := ih b' post true (by simp)
      (fun l hl => hmid l (by simp [List.dropLast_cons₂, hl]))
      (by simpa [List.getLast_cons] using hlast)
    calc collectJson ((b :: b' :: bs) ++ post) started
        = b :: collectJson ((b' :: bs) ++ post) true := by
          simp [collectJson, hstart, hb]
      _ = b :: b' :: bs := by rw [hrec]

/-- Every accumulated line is a line of the input. -/
theorem collectJson_subset (lines : List (List Char)) :
    ∀ (started : Bool) (l : List Char), l ∈ collectJson lines started → l ∈ lines := by
  induction lines with
  | nil => intro _ _ h; simp [collectJson] at h
  | cons x rest ih =>
    intro started l h
    simp only [collectJson] at h
    by_cases hs : (started || hasChar x '{') = true
    · rw [if_pos hs] at h
      by_cases hc : hasChar x '}' = true
      · rw [if_pos hc] at h
        simp at h; simp [h]
      · rw [if_neg hc] at h
        rcases List.mem_cons.mp h with h | h
        · simp [h]
        · exact List.mem_cons_of_mem x (ih true l h)
    · rw [if_neg hs] at h
      exact List.mem_cons_of_mem x (ih false l h)

/-- The newline-join of lines each free of a brace-close is free of
brace-closes. -/
theorem joinLines_no_close (data : List (List Char))
    (h : ∀ l ∈ data, hasChar l '}' = false) : hasChar (joinLines data) '}' = false := by
  induction data with
  | nil => rfl
  | cons l ls ih =>
    cases ls with
    | nil => exact h l (by simp)
    | cons l' ls' =>
      have h1 : hasChar l '}' = false := h l (by simp)
      have h2 : hasChar (joinLines (l' :: ls')) '}' = false :=
        ih fun x hx => h x (List.mem_cons_of_mem l hx)
      rw [hasChar_false_iff] at h1 h2 ⊢
      simp only [joinLines, List.mem_append, List.mem_cons]
      rintro (hc | hc | hc)
      · exact h1 hc
      · exact absurd hc.symm (by decide)
      · exact h2 hc

/-- The newline-join ends with the last character of its last line. -/
theorem joinLines_end (bs : List (List Char)) :
    ∀ (b : List Char),
    ((b :: bs).getLast (by simp)).reverse.head? = some '}' →
    (joinLines (b :: bs)).reverse.head? = some '}' := by
  induction bs with
  | nil => intro b h; simpa [joinLines] using h
  | cons b' bs ih =>
    intro b h
    have hrec := ih b' (by simpa [List.getLast_cons] using h)
    have hne : (joinLines (b' :: bs)).reverse ≠ [] := by
      intro hnil; rw [hnil] at hrec; simp at hrec
    simp only [joinLines, List.reverse_append, List.reverse_cons]
    rw [List.head?_append, List.head?_append]
    rcases List.exists_cons_of_ne_nil hne with ⟨c, t, hct⟩
    rw [hct] at hrec ⊢
    simpa using hrec

/-- A string ends with a character exactly when that character is a member. -/
theorem hasChar_of_end (l : List Char) (c : Char) (h : l.reverse.head? = some c) :
    hasChar l c = true := by
  have hm : c ∈ l.reverse := by
    cases hr : l.reverse with
    | nil => rw [hr] at h; simp at h
    | cons x t =>
      rw [hr] at h
      simp only [List.head?_cons, Option.some.injEq] at h
      simp [h]
  simp only [hasChar, List.elem_iff]
  exact List.mem_reverse.mp hm

/-- C2, counterexample: the blob `["x {", "{\"a\": 1}"]` contains exactly one
well-formed brace-delimited JSON object, namely `{"a": 1}` on its second
line (the lone brace-open inside the free text `"x {"` is part of no
object).  The scanner marks the start at the *first* line containing a
brace-open — the free-text line — so the trimmed slice is `"{\n{\"a\": 1}"`,
not the object.  (In Python, `json.loads` then raises and the function
returns `None`; either way the object is not recovered.) -/
theorem C2_extract_counterexample :
    extract_json_block ["x \x7b".toList, "\x7b\"a\": 1\x7d".toList] =
      some "\x7b\n\x7b\"a\": 1\x7d".toList ∧
    extract_json_block ["x \x7b".toList, "\x7b\"a\": 1\x7d".toList] ≠
      some "\x7b\"a\": 1\x7d".toList := by
  constructor
  · rfl
  · decide

/-- C2, amended: line-scanning extraction recovers exactly the embedded
JSON object provided that (i) no line of the free text before the object
contains a brace-open, (ii) the object's text starts at the beginning of its
first line with its opening brace, (iii) no line of the object except its
last contains a brace-close, and (iv) the object's last line ends with its
closing brace — the free text after the object is arbitrary.  And for every
blob with no brace-open, or none with a brace-close (in particular any blob
with no brace pair at all), extraction returns `none` without raising. -/
theorem C2_extract_json_block :
    (∀ (pre : List (List Char)) (b1 : List Char) (bs post : List (List Char)),
      (∀ l ∈ pre, hasChar l '{' = false) →
      (∀ l ∈ (('{' :: b1) :: bs).dropLast, hasChar l '}' = false) →
      ((('{' :: b1) :: bs).getLast (by simp)).reverse.head? = some '}' →
      extract_json_block (pre ++ (('{' :: b1) :: bs) ++ post) =
        some (joinLines (('{' :: b1) :: bs))) ∧
    (∀ lines : List (List Char),
      (∀ l ∈ lines, hasChar l '{' = false) ∨ (∀ l ∈ lines, hasChar l '}' = false) →
      extract_json_block lines = none) := by
  constructor
  · intro pre b1 bs post hpre hmid hend
    have hdata : collectJson (pre ++ (('{' :: b1) :: bs) ++ post) false = ('{' :: b1) :: bs := by
      rw [List.append_assoc, collectJson_skip pre _ hpre]
      exact collectJson_body bs ('{' :: b1) post false (by simp [hasChar])
        hmid (hasChar_of_end _ _ hend)
    have hendj : (joinLines (('{' :: b1) :: bs)).reverse.head? = some '}' :=
      joinLines_end bs ('{' :: b1) hend
    obtain ⟨t, ht⟩ : ∃ t, (joinLines (('{' :: b1) :: bs)).reverse = '}' :: t := by
      cases hr : (joinLines (('{' :: b1) :: bs)).reverse with
      | nil => rw [hr] at hendj; simp at hendj
      | cons x s =>
        rw [hr] at hendj
        simp only [List.head?_cons, Option.some.injEq] at hendj
        exact ⟨s, by rw [hendj]⟩
    have hlen : (joinLines (('{' :: b1) :: bs)).length ≥ 1 := by
      have : (joinLines (('{' :: b1) :: bs)).reverse.length = t.length + 1 := by
        rw [ht]; simp
      rw [List.length_reverse] at this
      omega
    have hfind : (joinLines (('{' :: b1) :: bs)).findIdx (· == '{') = 0 := by
      cases bs with
      | nil => simp [joinLines, List.findIdx_cons]
      | cons b' bs' => simp [joinLines, List.findIdx_cons]
    have hfound : (joinLines (('{' :: b1) :: bs)).reverse.findIdx? (· == '}') = some 0 := by
      rw [ht]; simp [List.findIdx?_cons]
    simp only [extract_json_block, hdata, List.isEmpty_cons, if_neg, Bool.false_eq_true,
      not_false_eq_true, hfound, hfind, pySlice]
    rw [show (joinLines (('{' :: b1) :: bs)).length - 1 - 0 + 1 =
          (joinLines (('{' :: b1) :: bs)).length by omega]
    simp
  · intro lines h
    rcases h with h | h
    · have hnil : collectJson lines false = [] := by
        have := collectJson_skip lines [] h
        simpa using this
      simp [extract_json_block, hnil]
    · simp only [extract_json_block]
      by_cases hd : (collectJson lines false).isEmpty
      · simp [hd]
      · have hnc : ∀ l ∈ collectJson lines false, hasChar l '}' = false :=
          fun l hl => h l (collectJson_subset lines false l hl)
        have hjoin : hasChar (joinLines (collectJson lines false)) '}' = false :=
          joinLines_no_close _ hnc
        have hnone : (joinLines (collectJson lines false)).reverse.findIdx? (· == '}') = none := by
          rw [hasChar_false_iff] at hjoin
          refine List.findIdx?_eq_none_iff.mpr ?_
          intro x hx
          have : x ∈ joinLines (collectJson lines false) := List.mem_reverse.mp hx
          by_cases hxc : x = '}'
          · exact absurd (hxc ▸ this) hjoin
          · simp [hxc]
        simp [hd, hnone]

/-- C2, witness: a concrete blob — free text without braces, then the
two-line object `{"a": 1\n}`, then trailing text — from which the object is
recovered exactly; and a braceless blob on which extraction yields `none`. -/
theorem C2_extract_json_block_witness :
    extract_json_block
      ["Parsed_loudnorm info".toList, "\x7b\"a\": 1".toList, "\x7d".toList, "tail".toList] =
      some "\x7b\"a\": 1\n\x7d".toList ∧
    extract_json_block ["no braces here".toList] = none := by
  constructor
  · exact C2_extract_json_block.1 ["Parsed_loudnorm info".toList] "\"a\": 1".toList
      ["\x7d".toList] ["tail".toList] (by decide) (by decide) (by decide)
  · exact C2_extract_json_block.2 ["no braces here".toList] (Or.inl (by decide))

/-- C1: For every non-null measurement record, `check_file_compliance` is
non-compliant exactly when the loudness deviation exceeds the tolerance or
the true peak exceeds the ceiling; the issue list consists of the loudness
issue (when loudness is out of tolerance) followed by the peak issue (when
the peak exceeds the ceiling), so: loudness violation alone gives exactly the
one loudness issue, peak violation alone exactly the one peak issue, both
violations exactly the two in (loudness, peak) order, and no violation gives
a compliant verdict with zero issues. -/
theorem C1_check_file_compliance (d : VerifyAudio.LoudnessData) :
    ((VerifyAudio.check_file_compliance (some d)).1 = false ↔
      (pyAbs (d.lufs - VerifyAudio.TARGET_LUFS) > VerifyAudio.LUFS_TOLERANCE ∨
       d.peak > VerifyAudio.TARGET_TP)) ∧
    (VerifyAudio.check_file_compliance (some d)).2 =
      (if pyAbs (d.lufs - VerifyAudio.TARGET_LUFS) > VerifyAudio.LUFS_TOLERANCE then
        [VerifyAudio.loudnessIssue d.lufs] else [])
      ++ (if d.peak > VerifyAudio.TARGET_TP then [VerifyAudio.peakIssue d.peak] else []) := by
  constructor
  · by_cases hl : pyAbs (d.lufs - VerifyAudio.TARGET_LUFS) > VerifyAudio.LUFS_TOLERANCE <;>
      by_cases hp : d.peak > VerifyAudio.TARGET_TP <;>
      simp [VerifyAudio.check_file_compliance, hl, hp]
  · rfl

/-- C3, counterexample: a run over two files in which the first file's
record is null (analysis failed) and the second measures -16.0 LUFS with a
-1.2 dBTP peak.  The claim asserts that no later "all compliant" aggregate
check is satisfied, naming the all-files-at-target-loudness summary line
among them — but that line's condition `compliant_files == total_checked and
total_checked > 0` excludes analysis failures from its denominator
(`total_checked = 2 - 1 = 1`, `compliant_files = 1`), so it *is* satisfied. -/
theorem C3_null_aggregate_counterexample :
    (none ∈ [none, some (⟨-16, -6/5, 0⟩ : VerifyAudio.LoudnessData)]) ∧
    VerifyAudio.summary_all_at_target
      [none, some (⟨-16, -6/5, 0⟩ : VerifyAudio.LoudnessData)] = true := by
  refine ⟨by simp, ?_⟩
  have h1 : ¬ (pyAbs ((-16 : ℚ) - VerifyAudio.TARGET_LUFS) > VerifyAudio.LUFS_TOLERANCE) := by
    norm_num [pyAbs, VerifyAudio.TARGET_LUFS, VerifyAudio.LUFS_TOLERANCE]
  have h2 : ¬ ((-6/5 : ℚ) > VerifyAudio.TARGET_TP) := by
    norm_num [VerifyAudio.TARGET_TP]
  have hc : (VerifyAudio.check_file_compliance (some ⟨-16, -6/5, 0⟩)).1 = true := by
    simp [VerifyAudio.check_file_compliance, h1, h2]
  simp [VerifyAudio.summary_all_at_target, VerifyAudio.compliant_files,
    VerifyAudio.failed_files_count, List.countP_cons, hc,
    VerifyAudio.check_file_compliance]
  exact ⟨not_lt.mp h1, not_lt.mp h2⟩

/-- C3, amended: when some file's measurement record is null, its compliance
result is non-compliant with the single issue "Failed to analyze file", and
the final all-files-ready headline (`compliant_files ==
len(normalized_files)`) is not satisfied.  (The intermediate
all-files-at-target-loudness summary line excludes analysis failures from
its denominator and can still be satisfied — see the counterexample.) -/
theorem C3_analysis_failure_aggregate (results : List (Option VerifyAudio.LoudnessData))
    (h : none ∈ results) :
    VerifyAudio.check_file_compliance none = (false, ["Failed to analyze file"]) ∧
    VerifyAudio.headline_all_ready results = false := by
  refine ⟨rfl, ?_⟩
  have hlt : VerifyAudio.compliant_files results ≠ results.length := by
    intro heq
    have hall := List.countP_eq_length.mp heq
    have := hall none h
    simp [VerifyAudio.check_file_compliance] at this
  simp [VerifyAudio.headline_all_ready, hlt]

/-- C3, witness: a one-file run whose only record is null. -/
theorem C3_analysis_failure_aggregate_witness :
    (none ∈ ([none] : List (Option VerifyAudio.LoudnessData))) ∧
    (VerifyAudio.check_file_compliance none = (false, ["Failed to analyze file"]) ∧
     VerifyAudio.headline_all_ready [none] = false) :=
  ⟨by simp, C3_analysis_failure_aggregate [none] (by simp)⟩

/-- C4: `normalize_audio` builds the external command in exactly two modes.
With a measurement record (a mapping, hence non-empty — `h`) it passes the
targets plus `measured_I`, `measured_TP`, `measured_LRA`, `measured_thresh`
and `offset` and requests `linear=true`; without one it passes only the
static targets; in both modes the sample rate is `-ar 44100`, the audio
bitrate `-b:a 192k`, and `-y` overwrites the output. -/
theorem C4_normalize_audio_cmd (input_file output_file : String)
    (d : NormalizeAudio.PyDict) (h : d ≠ []) :
    NormalizeAudio.normalize_audio_cmd input_file output_file (some d) =
      ["ffmpeg", "-i", input_file,
       "-af", "loudnorm=I=-16.0:TP=-1.0:LRA=7.0"
         ++ ":measured_I=" ++ NormalizeAudio.dictGet d "input_i" "-99.0"
         ++ ":measured_TP=" ++ NormalizeAudio.dictGet d "input_tp" "-99.0"
         ++ ":measured_LRA=" ++ NormalizeAudio.dictGet d "input_lra" "0.0"
         ++ ":measured_thresh=" ++ NormalizeAudio.dictGet d "input_thresh" "-99.0"
         ++ ":offset=" ++ NormalizeAudio.dictGet d "target_offset" "0.0"
         ++ ":linear=true",
       "-ar", "44100", "-b:a", "192k", "-y", output_file] ∧
    NormalizeAudio.normalize_audio_cmd input_file output_file none =
      ["ffmpeg", "-i", input_file,
       "-af", "loudnorm=I=-16.0:TP=-1.0:LRA=7.0",
       "-ar", "44100", "-b:a", "192k", "-y", output_file] := by
  constructor
  · cases d with
    | nil => exact absurd rfl h
    | cons x xs => rfl
  · rfl

/-- C4, witness: a concrete five-field measurement record. -/
theorem C4_normalize_audio_cmd_witness :
    ([("input_i", "-20.1"), ("input_tp", "-0.3"), ("input_lra", "5.0"),
      ("input_thresh", "-30.5"), ("target_offset", "0.2")] ≠
        ([] : NormalizeAudio.PyDict)) ∧
    NormalizeAudio.normalize_audio_cmd "song.wav" "out.mp3"
      (some [("input_i", "-20.1"), ("input_tp", "-0.3"), ("input_lra", "5.0"),
             ("input_thresh", "-30.5"), ("target_offset", "0.2")]) =
      ["ffmpeg", "-i", "song.wav",
       "-af", "loudnorm=I=-16.0:TP=-1.0:LRA=7.0:measured_I=-20.1:measured_TP=-0.3:measured_LRA=5.0:measured_thresh=-30.5:offset=0.2:linear=true",
       "-ar", "44100", "-b:a", "192k", "-y", "out.mp3"] :=
  ⟨by simp, by
    rw [(C4_normalize_audio_cmd "song.wav" "out.mp3"
      [("input_i", "-20.1"), ("input_tp", "-0.3"), ("input_lra", "5.0"),
       ("input_thresh", "-30.5"), ("target_offset", "0.2")] (by simp)).1]
    rfl⟩

/-- C8, counterexample: the verifier's measurement command for a concrete
file.  Its audio-filter argument is exactly `loudnorm=print_format=json`,
which does not contain the target loudness `I=-16.0` (nor any target) — so
the claim that *every* measurement invocation bakes the targets in is false
for `analyze_file`. -/
theorem C8_analysis_cmd_counterexample :
    VerifyAudio.analyze_file_cmd "f.mp3" =
      ["ffmpeg", "-i", "f.mp3", "-af", "loudnorm=print_format=json",
       "-f", "null", "-"] ∧
    containsSub "loudnorm=print_format=json".toList "I=-16.0".toList = false :=
  ⟨rfl, by decide⟩

/-- C8, amended: the normalizer's measurement command bakes the target
LUFS/true-peak/LRA into the audio-filter configuration; the verifier's
passes only `print_format=json`; both request JSON-formatted output on the
diagnostic stream and direct the media output to the null sink (`-f null -`),
so nothing is written. -/
theorem C8_analysis_cmds (f : String) :
    NormalizeAudio.analyze_loudness_cmd f =
      ["ffmpeg", "-i", f,
       "-af", "loudnorm=I=-16.0:TP=-1.0:LRA=7.0:print_format=json",
       "-f", "null", "-"] ∧
    VerifyAudio.analyze_file_cmd f =
      ["ffmpeg", "-i", f, "-af", "loudnorm=print_format=json", "-f", "null", "-"] :=
  ⟨rfl, rfl⟩

/-- Each loop iteration increases the sum of the three counters by exactly
one (it increments exactly one of them by exactly one). -/
theorem process_file_sum (f : String) (env : NormalizeAudio.FileEnv)
    (c : NormalizeAudio.Counters) :
    (NormalizeAudio.process_file f env c).1.successful +
      (NormalizeAudio.process_file f env c).1.failed +
      (NormalizeAudio.process_file f env c).1.skipped =
      c.successful + c.failed + c.skipped + 1 := by
  by_cases h1 : env.output_exists = true
  · simp [NormalizeAudio.process_file, h1]; omega
  · by_cases h2 : env.normalize_ok = true <;>
      simp [NormalizeAudio.process_file, h1, h2] <;> omega

/-- The loop adds one to the counter sum per processed file. -/
theorem run_loop_sum (files : List (String × NormalizeAudio.FileEnv)) :
    ∀ c : NormalizeAudio.Counters,
      (NormalizeAudio.run_loop files c).successful +
        (NormalizeAudio.run_loop files c).failed +
        (NormalizeAudio.run_loop files c).skipped =
        c.successful + c.failed + c.skipped + files.length := by
  induction files with
  | nil => intro c; simp [NormalizeAudio.run_loop]
  | cons p rest ih =>
    intro c
    obtain ⟨f, env⟩ := p
    have hstep := process_file_sum f env c
    calc (NormalizeAudio.run_loop ((f, env) :: rest) c).successful +
          (NormalizeAudio.run_loop ((f, env) :: rest) c).failed +
          (NormalizeAudio.run_loop ((f, env) :: rest) c).skipped
        = (NormalizeAudio.run_loop rest (NormalizeAudio.process_file f env c).1).successful +
          (NormalizeAudio.run_loop rest (NormalizeAudio.process_file f env c).1).failed +
          (NormalizeAudio.run_loop rest (NormalizeAudio.process_file f env c).1).skipped := rfl
      _ = (NormalizeAudio.process_file f env c).1.successful +
          (NormalizeAudio.process_file f env c).1.failed +
          (NormalizeAudio.process_file f env c).1.skipped + rest.length := ih _
      _ = c.successful + c.failed + c.skipped + ((f, env) :: rest).length := by
          rw [hstep]; simp; omega

/-- C7: when the computed output path already exists before processing, the
file is classified as skipped — only the skipped counter is incremented —
and no subprocess (neither measurement nor normalization) is invoked for
that file. -/
theorem C7_skip_no_subprocess (f : String) (env : NormalizeAudio.FileEnv)
    (c : NormalizeAudio.Counters) (h : env.output_exists = true) :
    NormalizeAudio.process_file f env c =
      ({ c with skipped := c.skipped + 1 }, []) := by
  simp [NormalizeAudio.process_file, h]

/-- C7, witness: a file whose output already exists (oracle `true`), with a
would-be-successful normalization that never runs. -/
theorem C7_skip_no_subprocess_witness :
    ((⟨true, none, true⟩ : NormalizeAudio.FileEnv).output_exists = true) ∧
    NormalizeAudio.process_file "a.mp3" ⟨true, none, true⟩ ⟨0, 0, 0⟩ =
      ({ successful := 0, failed := 0, skipped := 1 }, []) :=
  ⟨rfl, C7_skip_no_subprocess "a.mp3" ⟨true, none, true⟩ ⟨0, 0, 0⟩ rfl⟩

/-- C10: each loop iteration increments exactly one counter by exactly one,
and at the end of a batch run started from zeroed counters the counters
satisfy `successful + failed + skipped = number of discovered files`. -/
theorem C10_counter_invariant (files : List (String × NormalizeAudio.FileEnv)) :
    (∀ (f : String) (env : NormalizeAudio.FileEnv) (c : NormalizeAudio.Counters),
      (NormalizeAudio.process_file f env c).1.successful +
        (NormalizeAudio.process_file f env c).1.failed +
        (NormalizeAudio.process_file f env c).1.skipped =
        c.successful + c.failed + c.skipped + 1) ∧
    (NormalizeAudio.run_loop files ⟨0, 0, 0⟩).successful +
      (NormalizeAudio.run_loop files ⟨0, 0, 0⟩).failed +
      (NormalizeAudio.run_loop files ⟨0, 0, 0⟩).skipped = files.length := by
  refine ⟨process_file_sum, ?_⟩
  rw [run_loop_sum files ⟨0, 0, 0⟩]
  simp

/-- Directory-set insertion folds only grow the set. -/
theorem foldl_insert_superset (ps : List NormalizeAudio.PathP) :
    ∀ (fs : List NormalizeAudio.PathP) (q : NormalizeAudio.PathP), q ∈ fs →
      q ∈ ps.foldl (fun s p => if p ∈ s then s else s ++ [p]) fs := by
  induction ps with
  | nil => intro fs q h; simpa using h
  | cons p ps ih =>
    intro fs q h
    simp only [List.foldl_cons]
    apply ih
    by_cases hp : p ∈ fs
    · simpa [hp] using h
    · rw [if_neg hp]
      exact List.mem_append.mpr (Or.inl h)

/-- After the fold, every folded path is in the set. -/
theorem foldl_insert_mem (ps : List NormalizeAudio.PathP) :
    ∀ (fs : List NormalizeAudio.PathP) (p : NormalizeAudio.PathP), p ∈ ps →
      p ∈ ps.foldl (fun s p => if p ∈ s then s else s ++ [p]) fs := by
  induction ps with
  | nil => intro fs p h; simp at h
  | cons x ps ih =>
    intro fs p h
    simp only [List.foldl_cons]
    rcases List.mem_cons.mp h with rfl | h
    · apply foldl_insert_superset
      by_cases hx : p ∈ fs
      · simp [hx]
      · simp [hx]
    · exact ih _ p h

/-- Folding paths that all already exist leaves the set unchanged. -/
theorem foldl_insert_id (ps : List NormalizeAudio.PathP) :
    ∀ fs, (∀ p ∈ ps, p ∈ fs) →
      ps.foldl (fun s p => if p ∈ s then s else s ++ [p]) fs = fs := by
  induction ps with
  | nil => intro fs _; rfl
  | cons x ps ih =>
    intro fs h
    have hx : x ∈ fs := h x (by simp)
    simp only [List.foldl_cons, if_pos hx]
    exact ih fs (fun p hp => h p (by simp [hp]))

/-- C6: for an input `S ++ relDirs ++ [name]` under source root `S` and
destination root `D`, `create_output_path` returns
`D / relative(P, S)` with the suffix replaced by `.mp3`, and a second call
with the same arguments returns the same path without raising, even though
the intermediate directories now exist. -/
theorem C6_create_output_path (fs : List NormalizeAudio.PathP)
    (S D relDirs : List String) (name : String) :
    ∃ fs1,
      NormalizeAudio.create_output_path fs (S ++ (relDirs ++ [name])) S D =
        Except.ok (D ++ (relDirs ++ [pyWithSuffixMp3 name]), fs1) ∧
      NormalizeAudio.create_output_path fs1 (S ++ (relDirs ++ [name])) S D =
        Except.ok (D ++ (relDirs ++ [pyWithSuffixMp3 name]), fs1) := by
  have hrel : NormalizeAudio.relative_to (S ++ (relDirs ++ [name])) S =
      some (relDirs ++ [name]) := by
    unfold NormalizeAudio.relative_to
    rw [List.take_left, List.drop_left]
    simp
  have hparent : (D ++ (relDirs ++ [pyWithSuffixMp3 name])).dropLast = D ++ relDirs := by
    rw [show D ++ (relDirs ++ [pyWithSuffixMp3 name]) =
          (D ++ relDirs) ++ [pyWithSuffixMp3 name] from (List.append_assoc _ _ _).symm,
        List.dropLast_concat]
  refine ⟨(NormalizeAudio.prefixesOf (D ++ relDirs)).foldl
      (fun s p => if p ∈ s then s else s ++ [p]) fs, ?_, ?_⟩
  · unfold NormalizeAudio.create_output_path
    rw [hrel]
    simp only [List.getLast?_concat, List.dropLast_concat, hparent]
    unfold NormalizeAudio.mkdir_parents
    simp
  · unfold NormalizeAudio.create_output_path
    rw [hrel]
    simp only [List.getLast?_concat, List.dropLast_concat, hparent]
    unfold NormalizeAudio.mkdir_parents
    rw [if_neg (by simp)]
    rw [foldl_insert_id _ _ (fun p hp => foldl_insert_mem _ _ p hp)]

/-- The audio-filtering walk of `find_audio_files` equals the raw `os.walk`
enumeration filtered by the audio-name test and rendered as full paths
(proved for both members of the mutual definition simultaneously, by strong
induction on the size of the entry list). -/
theorem walkAudio_eq_walkPairs (n : Nat) :
    ∀ (entries : List FSTree), sizeOf entries ≤ n → ∀ root : String,
      walkAudioSubs root entries =
        ((walkPairsSubs root entries).filter (fun pr => isAudioName pr.2)).map
          (fun pr => joinPath pr.1 pr.2) ∧
      walkAudio root entries =
        ((walkPairs root entries).filter (fun pr => isAudioName pr.2)).map
          (fun pr => joinPath pr.1 pr.2) := by
  induction n using Nat.strong_induction_on with
  | _ n ih =>
    intro entries hsz root
    have hsubs : walkAudioSubs root entries =
        ((walkPairsSubs root entries).filter (fun pr => isAudioName pr.2)).map
          (fun pr => joinPath pr.1 pr.2) := by
      match entries, hsz with
      | [], _ => simp [walkAudioSubs, walkPairsSubs]
      | .file nm :: rest, hsz =>
        have hlt : sizeOf rest < n := by
          have : sizeOf rest < sizeOf (FSTree.file nm :: rest) := by simp
          omega
        have hr := (ih (sizeOf rest) hlt rest le_rfl root).1
        simpa [walkAudioSubs, walkPairsSubs] using hr
      | .dir d es :: rest, hsz =>
        have hlt1 : sizeOf es < n := by
          have : sizeOf es < sizeOf (FSTree.dir d es :: rest) := by simp; omega
          omega
        have hlt2 : sizeOf rest < n := by
          have : sizeOf rest < sizeOf (FSTree.dir d es :: rest) := by simp
          omega
        have h1 := (ih (sizeOf es) hlt1 es le_rfl (joinPath root d)).2
        have h2 := (ih (sizeOf rest) hlt2 rest le_rfl root).1
        simp [walkAudioSubs, walkPairsSubs, h1, h2, List.filter_append, List.map_append]
    refine ⟨hsubs, ?_⟩
    unfold walkAudio walkPairs
    rw [hsubs]
    simp only [List.filter_append, List.map_append, List.filter_map, List.map_map]
    rfl

/-- C5: `find_audio_files` returns exactly the files of the tree whose name
ends case-insensitively with one of the supported extensions — as full
paths, a permutation of the audio-filtered raw `os.walk` enumeration, so
every such file and no other — and the returned list is sorted by full path
string. -/
theorem C5_find_audio_files (root : String) (entries : List FSTree) :
    List.Perm (find_audio_files root entries)
      (((walkPairs root entries).filter (fun pr => isAudioName pr.2)).map
        (fun pr => joinPath pr.1 pr.2)) ∧
    List.Sorted (· ≤ ·) (find_audio_files root entries) := by
  constructor
  · have h := (walkAudio_eq_walkPairs (sizeOf entries) entries le_rfl root).2
    unfold find_audio_files
    rw [← h]
    exact List.perm_insertionSort _ _
  · exact List.sorted_insertionSort _ _

/-- C9: both programs exit `0` on normal completion regardless of per-file
outcomes (the per-file oracle is universally quantified and never read by
the exit computation) and also exit `0` on an empty batch; they exit `1`
when the required root directory is missing; and in single-file mode they
exit `1` exactly when the requested file's extension is not in the supported
set or no matching file is found under the root. -/
theorem C9_exit_codes :
    (∀ (args : List String) (env : String → NormalizeAudio.FileEnv),
      NormalizeAudio.normalize_main_exit ⟨none, args, env⟩ = 1) ∧
    (∀ (entries : List FSTree) (env : String → NormalizeAudio.FileEnv),
      NormalizeAudio.normalize_main_exit ⟨some entries, [], env⟩ = 0) ∧
    (∀ (entries : List FSTree) (fp : String) (rest : List String)
        (env : String → NormalizeAudio.FileEnv),
      NormalizeAudio.normalize_main_exit ⟨some entries, fp :: rest, env⟩ =
        (if isAudioName fp then
          (if (searchWalk (singleFileMatch fp) "mp3s" entries).isEmpty then 1 else 0)
         else 1)) ∧
    (∀ (w : VerifyAudio.World),
      (if w.args.contains "--source" then w.source_entries else w.normalized_entries) =
          none →
        VerifyAudio.verify_main_exit w = 1) ∧
    (∀ (w : VerifyAudio.World) (entries : List FSTree),
      (if w.args.contains "--source" then w.source_entries else w.normalized_entries) =
          some entries →
      VerifyAudio.verify_main_exit w =
        (match w.args.erase "--source" with
         | [] => 0
         | fp :: _ =>
           if isAudioName fp then
             (if (if w.args.contains "--source" then
                    searchWalk (singleFileMatch fp) "mp3s" entries
                  else searchWalk (normalizedFileMatch fp) "normalized" entries).isEmpty
              then 1 else 0)
           else 1)) := by
  refine ⟨fun args env => rfl, ?_, ?_, ?_, ?_⟩
  · intro entries env
    simp [NormalizeAudio.normalize_main_exit]
  · intro entries fp rest env
    by_cases h : isAudioName fp = true <;>
      simp [NormalizeAudio.normalize_main_exit, h]
  · intro w h
    obtain ⟨se, ne, args, an⟩ := w
    simp only at h
    simp only [VerifyAudio.verify_main_exit, h]
  · intro w entries h
    obtain ⟨se, ne, args, an⟩ := w
    simp only at h
    simp only [VerifyAudio.verify_main_exit, h]
    by_cases hcs : args.contains "--source" = true
    · simp only [hcs] at h ⊢
      cases he : args.erase "--source" with
      | nil => simp
      | cons fp rest =>
        by_cases hfp : isAudioName fp = true <;> simp [hfp]
    · simp only [hcs] at h ⊢
      cases he : args.erase "--source" with
      | nil => simp
      | cons fp rest =>
        by_cases hfp : isAudioName fp = true <;> simp [hfp]

/-- C9, witness: a verifier run with `--source` while the source directory
is missing exits `1`. -/
theorem C9_exit_codes_witness :
    ((if (["--source"] : List String).contains "--source" then (none : Option (List FSTree))
      else some []) = none) ∧
    VerifyAudio.verify_main_exit ⟨none, some [], ["--source"], fun _ => none⟩ = 1 :=
  ⟨rfl, C9_exit_codes.2.2.2.1 ⟨none, some [], ["--source"], fun _ => none⟩ rfl⟩
